import Mathlib

/-!
Shallow embedding of the moderation / consensus core of the `cloud-pods`
decentralized SNS feed (source: `src/unnamed/part_000`, a React + Gun.js
component).  Vote dictionaries (`{ [key: string]: boolean }` objects whose
values are only ever written as `true`) are modelled as `Finset String` of
their keys; `Object.keys(x).length` is the cardinality.  Optional record
fields (`likes?`, `reports?`, `governanceVotes?`) are `Option (Finset String)`.
JavaScript truthiness on strings (empty string is falsy) is modelled by
`truthy`.  An absent `text` field and an empty `text` field are collapsed to
the empty string, because the source only ever tests `data.text` for
truthiness, which identifies the two.
-/

/-- Constant `LIKE_THRESHOLD` from the source (line 30); informational only. -/
def LIKE_THRESHOLD : Nat := 1

/-- Constant `REPORT_THRESHOLD` from the source (line 31): 3 or more reports hide a post. -/
def REPORT_THRESHOLD : Nat := 3

/-- Constant `GOVERNANCE_THRESHOLD` from the source (line 32): 2 or more governance votes hide a post. -/
def GOVERNANCE_THRESHOLD : Nat := 2

/-- A post record as stored in the Gun `posts` node (the object written by
`handlePost`, without the `id`, which is the store key). -/
structure PostRecord where
  text : String
  createdAt : Int
  user : Option String
  likes : Option (Finset String)
  reports : Option (Finset String)
  governanceVotes : Option (Finset String)
deriving DecidableEq

/-- The TS `PostData` interface: a store record together with its key, as it
appears in the local React `posts` state (`{ id: key, ...data }`). -/
structure PostData where
  id : String
  text : String
  createdAt : Int
  user : Option String
  likes : Option (Finset String)
  reports : Option (Finset String)
  governanceVotes : Option (Finset String)
deriving DecidableEq

/-- The spread `{ id: key, ...data }` used by the posts subscription. -/
def toPostData (key : String) (r : PostRecord) : PostData :=
  { id := key, text := r.text, createdAt := r.createdAt, user := r.user,
    likes := r.likes, reports := r.reports, governanceVotes := r.governanceVotes }

/-- Tally `post.reports ? Object.keys(post.reports).length : 0` (source line 236). -/
def reportCount (p : PostData) : Nat :=
  match p.reports with
  | some s => s.card
  | none => 0

/-- Tally `post.governanceVotes ? Object.keys(post.governanceVotes).length : 0` (source line 237). -/
def governanceCount (p : PostData) : Nat :=
  match p.governanceVotes with
  | some s => s.card
  | none => 0

/-- Tally `post.likes ? Object.keys(post.likes).length : 0` (source line 289). -/
def likeCount (p : PostData) : Nat :=
  match p.likes with
  | some s => s.card
  | none => 0

/-- The predicate inside `filterPosts` (source line 238):
`reportCount < REPORT_THRESHOLD && governanceCount < GOVERNANCE_THRESHOLD`. -/
def isEligible (p : PostData) : Bool :=
  decide (reportCount p < REPORT_THRESHOLD) && decide (governanceCount p < GOVERNANCE_THRESHOLD)

/-- Function `filterPosts` (source lines 234-240). -/
def filterPosts (posts : List PostData) : List PostData :=
  posts.filter isEligible

/-- A concrete post carrying no votes at all, used for boundary instances. -/
def basePost (id : String) (createdAt : Int) : PostData :=
  { id := id, text := "t", createdAt := createdAt, user := none,
    likes := none, reports := none, governanceVotes := none }

/-- A post with exactly 2 report votes (and no governance votes). -/
def rep2Post : PostData :=
  { basePost "r2" 0 with reports := some {"u1", "u2"} }

/-- A post with exactly 3 report votes (and no governance votes). -/
def rep3Post : PostData :=
  { basePost "r3" 0 with reports := some {"u1", "u2", "u3"} }

/-- A post with exactly 1 governance vote (and no report votes). -/
def gov1Post : PostData :=
  { basePost "g1" 0 with governanceVotes := some {"u1"} }

/-- A post with exactly 2 governance votes (and no report votes). -/
def gov2Post : PostData :=
  { basePost "g2" 0 with governanceVotes := some {"u1", "u2"} }

/-- C1: `filterPosts` keeps a post exactly when its report-vote set has size
strictly below 3 and its governance-vote set has size strictly below 2; at the
boundary, exactly 2 report votes is eligible and exactly 3 is not, and exactly
1 governance vote is eligible and exactly 2 is not. -/
theorem C1_visibility_thresholds :
    (∀ (l : List PostData) (p : PostData),
        p ∈ filterPosts l ↔ p ∈ l ∧ (reportCount p < 3 ∧ governanceCount p < 2))
    ∧ isEligible rep2Post = true
    ∧ isEligible rep3Post = false
    ∧ isEligible gov1Post = true
    ∧ isEligible gov2Post = false := by
  refine ⟨fun l p => ?_, by decide, by decide, by decide, by decide⟩
  simp [filterPosts, List.mem_filter, isEligible, REPORT_THRESHOLD, GOVERNANCE_THRESHOLD,
    and_assoc]

/-!
The Gun `posts` node, modelled as an association list from keys to records.
`Store.get` is `gun.get('posts').get(postId).once(...)` delivering the current
record, or `none` when the key is absent (Gun then calls the callback with
`undefined`).  `Store.putMerge` is `postRef.put(partial)`: a field-level merge
that updates only the fields present in the written object.
-/

/-- The Gun `posts` node: keys paired with their current records. -/
abbrev Store := List (String × PostRecord)

/-- Read `postRef.once(cb)`: the current record under a key, `none` if absent. -/
def Store.get (s : Store) (k : String) : Option PostRecord :=
  (s.find? (fun e => e.1 == k)).map (fun e => e.2)

/-- A partial post object passed to `postRef.put(...)`: only the fields that
are present are written (Gun merges at field granularity). -/
structure PartialPost where
  text : Option String := none
  createdAt : Option Int := none
  user : Option (Option String) := none
  likes : Option (Finset String) := none
  reports : Option (Finset String) := none
  governanceVotes : Option (Finset String) := none
deriving DecidableEq

/-- Merge one optional field: a field present in the written object replaces
the stored one, an absent field leaves the stored one untouched. -/
def mergeField (m d : Option (Finset String)) : Option (Finset String) :=
  match m with
  | some v => some v
  | none => d

/-- Gun's field-level merge of a written partial object into a stored record. -/
def mergePost (d : PostRecord) (m : PartialPost) : PostRecord :=
  { text := m.text.getD d.text,
    createdAt := m.createdAt.getD d.createdAt,
    user := m.user.getD d.user,
    likes := mergeField m.likes d.likes,
    reports := mergeField m.reports d.reports,
    governanceVotes := mergeField m.governanceVotes d.governanceVotes }

/-- Write `postRef.put(m)` on key `k`: merge `m` into the record stored under `k`.
In the source this is only ever invoked on a key that was just read
successfully, so no creation case is needed. -/
def Store.putMerge (s : Store) (k : String) (m : PartialPost) : Store :=
  s.map (fun e => if e.1 == k then (e.1, mergePost e.2 m) else e)

/-- JavaScript truthiness of `gunUser.is && gunUser.is.alias`: no session or a
missing/empty alias is falsy. -/
def truthy : Option String → Bool
  | none => false
  | some s => !(s == "")

/-- The observable outcome of one vote handler invocation.
`warnLogin` is `toast.warn('ログインしてください。')`; `silentAbort` is the bare
`return` when `currentUser` is falsy; `typeError` is the uncaught TypeError
raised by reading a field of `undefined` when the post is absent;
`alreadyVoted` is the `toast.info` duplicate-vote branch; `voteCast` is the
successful write branch.  `postNotFound` is listed only to state the error
taxonomy of the design document: no handler in the source ever produces it. -/
inductive Outcome
  | warnLogin
  | silentAbort
  | typeError
  | alreadyVoted
  | voteCast
  | postNotFound
deriving DecidableEq

/-- Handler `handleLike` (source lines 168-186), returning the outcome and the partial
object passed to `postRef.put`, if any. -/
def handleLike (loggedIn : Bool) (actor : Option String) (s : Store) (postId : String) :
    Outcome × Option PartialPost :=
  if !loggedIn then (Outcome.warnLogin, none)
  else if !truthy actor then (Outcome.silentAbort, none)
  else
    match s.get postId with
    | none => (Outcome.typeError, none)
    | some data =>
        let likes := data.likes.getD ∅
        let u := actor.getD ""
        if u ∈ likes then (Outcome.alreadyVoted, none)
        else (Outcome.voteCast, some { likes := some (insert u likes) })

/-- Handler `handleReport` (source lines 189-208). -/
def handleReport (loggedIn : Bool) (actor : Option String) (s : Store) (postId : String) :
    Outcome × Option PartialPost :=
  if !loggedIn then (Outcome.warnLogin, none)
  else if !truthy actor then (Outcome.silentAbort, none)
  else
    match s.get postId with
    | none => (Outcome.typeError, none)
    | some data =>
        let reports := data.reports.getD ∅
        let u := actor.getD ""
        if u ∈ reports then (Outcome.alreadyVoted, none)
        else (Outcome.voteCast, some { reports := some (insert u reports) })

/-- Handler `handleGovernanceVote` (source lines 212-231). -/
def handleGovernanceVote (loggedIn : Bool) (actor : Option String) (s : Store) (postId : String) :
    Outcome × Option PartialPost :=
  if !loggedIn then (Outcome.warnLogin, none)
  else if !truthy actor then (Outcome.silentAbort, none)
  else
    match s.get postId with
    | none => (Outcome.typeError, none)
    | some data =>
        let votes := data.governanceVotes.getD ∅
        let u := actor.getD ""
        if u ∈ votes then (Outcome.alreadyVoted, none)
        else (Outcome.voteCast, some { governanceVotes := some (insert u votes) })

/-- The three vote classes of the design document. -/
inductive VoteClass
  | like
  | report
  | governance
deriving DecidableEq

/-- Operation `castVote(postId, voteClass, actorId)`: dispatch to the three handlers. -/
def castVote (c : VoteClass) (loggedIn : Bool) (actor : Option String) (s : Store)
    (postId : String) : Outcome × Option PartialPost :=
  match c with
  | VoteClass.like => handleLike loggedIn actor s postId
  | VoteClass.report => handleReport loggedIn actor s postId
  | VoteClass.governance => handleGovernanceVote loggedIn actor s postId

/-- One vote handler invocation together with its effect on the store: the
written partial object, if any, is merged into the targeted record. -/
def runVote (c : VoteClass) (loggedIn : Bool) (actor : Option String) (s : Store)
    (postId : String) : Outcome × Store :=
  match castVote c loggedIn actor s postId with
  | (o, none) => (o, s)
  | (o, some m) => (o, s.putMerge postId m)

/-- The vote set of a class inside a stored record. -/
def voteField (c : VoteClass) (d : PostRecord) : Option (Finset String) :=
  match c with
  | VoteClass.like => d.likes
  | VoteClass.report => d.reports
  | VoteClass.governance => d.governanceVotes

/-- The vote set of a class inside a written partial object. -/
def partialVoteField (c : VoteClass) (m : PartialPost) : Option (Finset String) :=
  match c with
  | VoteClass.like => m.likes
  | VoteClass.report => m.reports
  | VoteClass.governance => m.governanceVotes

/-- The partial object a handler writes for class `c` and new set `v`. -/
def voteMsg (c : VoteClass) (v : Finset String) : PartialPost :=
  match c with
  | VoteClass.like => { likes := some v }
  | VoteClass.report => { reports := some v }
  | VoteClass.governance => { governanceVotes := some v }

/-- All three handlers share one shape, expressed through `voteField` and
`voteMsg`. -/
theorem castVote_eq (c : VoteClass) (lg : Bool) (actor : Option String) (s : Store)
    (pid : String) :
    castVote c lg actor s pid =
      if !lg then (Outcome.warnLogin, none)
      else if !truthy actor then (Outcome.silentAbort, none)
      else
        match s.get pid with
        | none => (Outcome.typeError, none)
        | some d =>
            if actor.getD "" ∈ (voteField c d).getD ∅ then (Outcome.alreadyVoted, none)
            else (Outcome.voteCast,
              some (voteMsg c (insert (actor.getD "") ((voteField c d).getD ∅)))) := by
  cases c <;> rfl

/-- Unfolding `Store.get` over a cons cell. -/
theorem Store.get_cons (e : String × PostRecord) (t : Store) (j : String) :
    Store.get (e :: t) j = if e.1 == j then some e.2 else Store.get t j := by
  simp only [Store.get, List.find?]
  cases h : e.1 == j <;> simp [h]

/-- Reading after a field-merge write: the targeted key sees the merged
record, every other key is untouched. -/
theorem Store.get_putMerge (s : Store) (k j : String) (m : PartialPost) :
    (s.putMerge k m).get j =
      if j = k then (s.get j).map (fun d => mergePost d m) else s.get j := by
  induction s with
  | nil =>
      by_cases h : j = k <;> simp [Store.get, Store.putMerge, h]
  | cons e t ih =>
      have hcons : Store.putMerge (e :: t) k m
          = (if e.1 == k then (e.1, mergePost e.2 m) else e) :: Store.putMerge t k m := by
        simp [Store.putMerge]
      rw [hcons]
      by_cases hek : e.1 = k
      · rw [if_pos (by simp [hek] : (e.1 == k) = true)]
        rw [Store.get_cons, Store.get_cons]
        by_cases hej : e.1 = j
        · have hjk : j = k := by rw [← hej, hek]
          rw [if_pos (by simp [hej] : (e.1 == j) = true),
            if_pos (by simp [hej] : (e.1 == j) = true), if_pos hjk]
          rfl
        · have hjk : ¬(j = k) := by
            intro h
            exact hej (by rw [hek, h])
          rw [if_neg (by simp [hej] : ¬((e.1 == j) = true)),
            if_neg (by simp [hej] : ¬((e.1 == j) = true)), ih, if_neg hjk]
      · rw [if_neg (by simp [hek] : ¬((e.1 == k) = true))]
        rw [Store.get_cons, Store.get_cons]
        by_cases hej : e.1 = j
        · have hjk : ¬(j = k) := by
            intro h
            exact hek (by rw [hej, h])
          rw [if_pos (by simp [hej] : (e.1 == j) = true),
            if_pos (by simp [hej] : (e.1 == j) = true), if_neg hjk]
        · rw [if_neg (by simp [hej] : ¬((e.1 == j) = true)),
            if_neg (by simp [hej] : ¬((e.1 == j) = true)), ih]

/-- Merging a vote write for class `c` sets exactly that class's field. -/
theorem voteField_merge_voteMsg (c : VoteClass) (d : PostRecord) (v : Finset String) :
    voteField c (mergePost d (voteMsg c v)) = some v := by
  cases c <;> rfl

/-- Merging a vote write for class `c` leaves the other classes' fields alone. -/
theorem voteField_merge_voteMsg_ne (c c' : VoteClass) (h : c' ≠ c) (d : PostRecord)
    (v : Finset String) :
    voteField c' (mergePost d (voteMsg c v)) = voteField c' d := by
  cases c <;> cases c' <;> first
    | exact absurd rfl h
    | rfl

/-- With the session and identity checks passed and the post present, a cast
reduces to the membership test on the class's current vote set. -/
theorem castVote_found (c : VoteClass) (s : Store) (pid : String) (a : String)
    (d : PostRecord) (ha : a ≠ "") (hd : s.get pid = some d) :
    castVote c true (some a) s pid =
      (if a ∈ (voteField c d).getD ∅ then (Outcome.alreadyVoted, none)
       else (Outcome.voteCast, some (voteMsg c (insert a ((voteField c d).getD ∅))))) := by
  rw [castVote_eq]
  simp [truthy, ha, hd]

/-- C2: with a logged-in session, a non-empty actor identity and an existing
post, casting the same vote twice in sequence leaves the store exactly as
after the first cast: the second invocation writes nothing (`none` message)
and reports the `AlreadyVoted` informational outcome. -/
theorem C2_castVote_idempotent (c : VoteClass) (s : Store) (pid : String) (a : String)
    (d : PostRecord) (ha : a ≠ "") (hd : s.get pid = some d) :
    castVote c true (some a) ((runVote c true (some a) s pid).2) pid
        = (Outcome.alreadyVoted, none)
    ∧ runVote c true (some a) ((runVote c true (some a) s pid).2) pid
        = (Outcome.alreadyVoted, (runVote c true (some a) s pid).2) := by
  have h1 := castVote_found c s pid a d ha hd
  by_cases hmem : a ∈ (voteField c d).getD ∅
  · have hc1 : castVote c true (some a) s pid = (Outcome.alreadyVoted, none) := by
      rw [h1, if_pos hmem]
    have hrun : runVote c true (some a) s pid = (Outcome.alreadyVoted, s) := by
      simp [runVote, hc1]
    rw [hrun]
    exact ⟨hc1, hrun⟩
  · have hc1 : castVote c true (some a) s pid
        = (Outcome.voteCast, some (voteMsg c (insert a ((voteField c d).getD ∅)))) := by
      rw [h1, if_neg hmem]
    have hrun : runVote c true (some a) s pid
        = (Outcome.voteCast,
           s.putMerge pid (voteMsg c (insert a ((voteField c d).getD ∅)))) := by
      simp [runVote, hc1]
    have hget1 : (s.putMerge pid (voteMsg c (insert a ((voteField c d).getD ∅)))).get pid
        = some (mergePost d (voteMsg c (insert a ((voteField c d).getD ∅)))) := by
      rw [Store.get_putMerge, if_pos rfl, hd]
      rfl
    have hc2 : castVote c true (some a)
        (s.putMerge pid (voteMsg c (insert a ((voteField c d).getD ∅)))) pid
        = (Outcome.alreadyVoted, none) := by
      rw [castVote_found c _ pid a _ ha hget1, voteField_merge_voteMsg]
      simp
    rw [hrun]
    exact ⟨hc2, by simp [runVote, hc2]⟩

/-- Witness for C2 at a concrete one-post store. -/
theorem C2_castVote_idempotent_witness :
    castVote VoteClass.report true (some "alice")
        ((runVote VoteClass.report true (some "alice")
          [("p1", { text := "hello", createdAt := 5, user := some "bob",
                    likes := some ∅, reports := some ∅, governanceVotes := some ∅ })] "p1").2) "p1"
      = (Outcome.alreadyVoted, none) :=
  (C2_castVote_idempotent VoteClass.report
    [("p1", { text := "hello", createdAt := 5, user := some "bob",
              likes := some ∅, reports := some ∅, governanceVotes := some ∅ })]
    "p1" "alice"
    { text := "hello", createdAt := 5, user := some "bob",
      likes := some ∅, reports := some ∅, governanceVotes := some ∅ }
    (by decide) (by rfl)).1

/-- Report-vote tally of a stored record (`Object.keys(reports).length`). -/
def recReportCount (d : PostRecord) : Nat :=
  match d.reports with
  | some s => s.card
  | none => 0

/-- Governance-vote tally of a stored record. -/
def recGovernanceCount (d : PostRecord) : Nat :=
  match d.governanceVotes with
  | some s => s.card
  | none => 0

/-- The projected view entry carries the record's report tally unchanged. -/
theorem reportCount_toPostData (k : String) (d : PostRecord) :
    reportCount (toPostData k d) = recReportCount d := rfl

/-- The projected view entry carries the record's governance tally unchanged. -/
theorem governanceCount_toPostData (k : String) (d : PostRecord) :
    governanceCount (toPostData k d) = recGovernanceCount d := rfl

/-- Merging a vote write never shrinks the report tally. -/
theorem recReportCount_merge_le (c : VoteClass) (d : PostRecord) (u : String) :
    recReportCount d
      ≤ recReportCount (mergePost d (voteMsg c (insert u ((voteField c d).getD ∅)))) := by
  cases c
  · rfl
  · show recReportCount d ≤ (insert u (d.reports.getD ∅)).card
    have h1 : recReportCount d = (d.reports.getD ∅).card := by
      cases h : d.reports <;> simp [recReportCount, h]
    rw [h1]
    exact Finset.card_le_card (Finset.subset_insert u _)
  · rfl

/-- Merging a vote write never shrinks the governance tally. -/
theorem recGovernanceCount_merge_le (c : VoteClass) (d : PostRecord) (u : String) :
    recGovernanceCount d
      ≤ recGovernanceCount (mergePost d (voteMsg c (insert u ((voteField c d).getD ∅)))) := by
  cases c
  · rfl
  · rfl
  · show recGovernanceCount d ≤ (insert u (d.governanceVotes.getD ∅)).card
    have h1 : recGovernanceCount d = (d.governanceVotes.getD ∅).card := by
      cases h : d.governanceVotes <;> simp [recGovernanceCount, h]
    rw [h1]
    exact Finset.card_le_card (Finset.subset_insert u _)

/-- A handler writes a partial object only on the success branch, and that
object is the vote message for its class built from the set it just read. -/
theorem castVote_write_shape (c : VoteClass) (lg : Bool) (actor : Option String)
    (s : Store) (k : String) (o : Outcome) (m : PartialPost)
    (h : castVote c lg actor s k = (o, some m)) :
    ∃ d, s.get k = some d
      ∧ m = voteMsg c (insert (actor.getD "") ((voteField c d).getD ∅))
      ∧ o = Outcome.voteCast := by
  rw [castVote_eq] at h
  by_cases hlg : lg
  · by_cases htru : truthy actor = true
    · rcases hk : s.get k with _ | dk
      · rw [hlg, htru, hk] at h
        simp at h
      · rw [hlg, htru, hk] at h
        simp only [Bool.not_true, Bool.false_eq_true, if_false] at h
        by_cases hmem : actor.getD "" ∈ (voteField c dk).getD ∅
        · rw [if_pos hmem] at h
          simp at h
        · rw [if_neg hmem] at h
          have h1 : Outcome.voteCast = o := congrArg Prod.fst h
          have h2 : (some (voteMsg c (insert (actor.getD "")
              ((voteField c dk).getD ∅))) : Option PartialPost) = some m :=
            congrArg Prod.snd h
          exact ⟨dk, rfl, (Option.some.inj h2).symm, h1.symm⟩
    · have htru2 : truthy actor = false := by
        cases htv : truthy actor
        · rfl
        · exact absurd htv htru
      rw [hlg, htru2] at h
      simp at h
  · have hlg2 : lg = false := by
      cases hv : lg
      · rfl
      · exact absurd hv hlg
    rw [hlg2] at h
    simp at h

/-- One vote handler invocation keeps every present record present and never
shrinks its report or governance tallies. -/
theorem runVote_tally_mono (c : VoteClass) (lg : Bool) (actor : Option String)
    (s : Store) (k pid : String) (d : PostRecord) (hd : s.get pid = some d) :
    ∃ d', (runVote c lg actor s k).2.get pid = some d'
      ∧ recReportCount d ≤ recReportCount d'
      ∧ recGovernanceCount d ≤ recGovernanceCount d' := by
  rcases hw : castVote c lg actor s k with ⟨o, w⟩
  cases w with
  | none =>
      refine ⟨d, ?_, le_refl _, le_refl _⟩
      simp [runVote, hw, hd]
  | some m =>
      obtain ⟨dk, hk, hm, ho⟩ := castVote_write_shape c lg actor s k o m hw
      have hrun : (runVote c lg actor s k).2 = s.putMerge k m := by
        simp [runVote, hw]
      rw [hrun, Store.get_putMerge]
      by_cases hpk : pid = k
      · subst hpk
        rw [hd] at hk
        cases Option.some.inj hk
        rw [if_pos rfl, hd, hm]
        exact ⟨mergePost d (voteMsg c (insert (actor.getD "") ((voteField c d).getD ∅))),
          rfl, recReportCount_merge_le c d _, recGovernanceCount_merge_le c d _⟩
      · rw [if_neg hpk]
        exact ⟨d, hd, le_refl _, le_refl _⟩

/-- A sequence of vote actions: each entry is `(class, loggedIn, actor, postId)`,
applied in order through `runVote`. -/
def runOps (s : Store) (ops : List (VoteClass × Bool × Option String × String)) : Store :=
  ops.foldl (fun st op => (runVote op.1 op.2.1 op.2.2.1 st op.2.2.2).2) s

/-- Ineligibility only depends on the tallies and is preserved when they grow. -/
theorem isEligible_false_mono (k k' : String) (d d' : PostRecord)
    (h : isEligible (toPostData k d) = false)
    (hr : recReportCount d ≤ recReportCount d')
    (hg : recGovernanceCount d ≤ recGovernanceCount d') :
    isEligible (toPostData k' d') = false := by
  simp only [isEligible, Bool.and_eq_false_iff, decide_eq_false_iff_not, not_lt,
    reportCount_toPostData, governanceCount_toPostData] at h ⊢
  rcases h with h | h
  · exact Or.inl (le_trans h hr)
  · exact Or.inr (le_trans h hg)

/-- C3: once a post's record is ineligible under the visibility rule, it stays
ineligible after any further sequence of vote actions of any class, by any
actors, on any posts: vote sets only ever grow. -/
theorem C3_ineligible_forever (s : Store) (pid : String) (d : PostRecord)
    (hd : s.get pid = some d) (hin : isEligible (toPostData pid d) = false)
    (ops : List (VoteClass × Bool × Option String × String)) :
    ∃ d', (runOps s ops).get pid = some d'
      ∧ isEligible (toPostData pid d') = false := by
  induction ops generalizing s d with
  | nil => exact ⟨d, hd, hin⟩
  | cons op rest ih =>
      obtain ⟨d1, hd1, hr1, hg1⟩ :=
        runVote_tally_mono op.1 op.2.1 op.2.2.1 s op.2.2.2 pid d hd
      have hin1 : isEligible (toPostData pid d1) = false :=
        isEligible_false_mono pid pid d d1 hin hr1 hg1
      have hrw : runOps s (op :: rest)
          = runOps ((runVote op.1 op.2.1 op.2.2.1 s op.2.2.2).2) rest := by
        simp [runOps]
      rw [hrw]
      exact ih _ _ hd1 hin1

/-- Witness for C3: a post with 3 report votes stays hidden after one more like. -/
theorem C3_ineligible_forever_witness :
    ∃ d', (runOps
        [("p1", { text := "hello", createdAt := 5, user := some "bob",
                  likes := some ∅, reports := some {"u1", "u2", "u3"},
                  governanceVotes := some ∅ })]
        [(VoteClass.like, true, some "alice", "p1")]).get "p1" = some d'
      ∧ isEligible (toPostData "p1" d') = false :=
  C3_ineligible_forever
    [("p1", { text := "hello", createdAt := 5, user := some "bob",
              likes := some ∅, reports := some {"u1", "u2", "u3"},
              governanceVotes := some ∅ })]
    "p1"
    { text := "hello", createdAt := 5, user := some "bob",
      likes := some ∅, reports := some {"u1", "u2", "u3"}, governanceVotes := some ∅ }
    (by rfl) (by decide)
    [(VoteClass.like, true, some "alice", "p1")]

/-!
The rendered feed (source lines 286-288) is
`filterPosts(posts).sort((a, b) => b.createdAt - a.createdAt)`.
`Array.prototype.sort` is stable (ES2019), and the comparator orders by
`createdAt` descending, so the render order is the unique stable descending
sort of the filtered view: ties on `createdAt` keep the view's existing
(insertion) order.  `List.insertionSort` with the total transitive preorder
`byCreatedAtDesc` computes exactly this stable sort.
-/

/-- The render comparator: `a` not after `b` when `b.createdAt - a.createdAt ≤ 0`. -/
def byCreatedAtDesc (a b : PostData) : Prop := b.createdAt ≤ a.createdAt

instance : DecidableRel byCreatedAtDesc :=
  fun a b => inferInstanceAs (Decidable (b.createdAt ≤ a.createdAt))

instance : IsTotal PostData byCreatedAtDesc :=
  ⟨fun a b => Int.le_total b.createdAt a.createdAt⟩

instance : IsTrans PostData byCreatedAtDesc :=
  ⟨fun _ _ _ h1 h2 => le_trans h2 h1⟩

/-- Operation `snapshot`: the ordered sequence the component renders, i.e. the filtered
view stably sorted by `createdAt` descending. -/
def snapshot (posts : List PostData) : List PostData :=
  List.insertionSort byCreatedAtDesc (filterPosts posts)

/-- The four posts of the spec's ordering example. -/
def pa : PostData := basePost "a" 100

/-- Post `b`, tied with `c` at `createdAt = 300`. -/
def pb : PostData := basePost "b" 300

/-- Post `c`, tied with `b` at `createdAt = 300`. -/
def pc : PostData := basePost "c" 300

/-- Post `d` with `createdAt = 200`. -/
def pd : PostData := basePost "d" 200

/-- C4 counterexample: in the view state whose insertion order is
`[a, c, b, d]`, the rendered order is `[c, b, d, a]` — the `b`/`c` tie at
`createdAt = 300` follows the view order, not the identifier-ascending order
`[b, c, d, a]` the claim predicts for every view state. -/
theorem C4_counterexample :
    snapshot [pa, pc, pb, pd] = [pc, pb, pd, pa]
    ∧ ([pc, pb, pd, pa] : List PostData) ≠ [pb, pc, pd, pa] := by
  constructor
  · decide
  · decide

/-- C4 amended: the render returns exactly the eligible posts of the view,
sorted by `createdAt` descending; ties on equal `createdAt` keep the view's
existing order (`Array.prototype.sort` is stable), not identifier-ascending
order.  In particular, with view order `[a, b, c, d]` the example renders
`[b, c, d, a]`, and with view order `[a, c, b, d]` it renders `[c, b, d, a]`. -/
theorem C4_snapshot_stable_desc :
    (∀ v : List PostData, (snapshot v).Perm (filterPosts v))
    ∧ (∀ v : List PostData, (snapshot v).Sorted byCreatedAtDesc)
    ∧ (∀ (v : List PostData) (p q : PostData), q.createdAt ≤ p.createdAt →
        List.Sublist [p, q] (filterPosts v) → List.Sublist [p, q] (snapshot v))
    ∧ snapshot [pa, pb, pc, pd] = [pb, pc, pd, pa]
    ∧ snapshot [pa, pc, pb, pd] = [pc, pb, pd, pa] := by
  refine ⟨fun v => ?_, fun v => ?_, fun v p q hle hsub => ?_, by decide, by decide⟩
  · exact List.perm_insertionSort byCreatedAtDesc (filterPosts v)
  · exact List.sorted_insertionSort byCreatedAtDesc (filterPosts v)
  · exact List.pair_sublist_insertionSort hle hsub

/-- Witness for C4's stability clause at a concrete tied view. -/
theorem C4_snapshot_stable_desc_witness :
    List.Sublist [pc, pb] (snapshot [pa, pc, pb, pd]) :=
  C4_snapshot_stable_desc.2.2.1 [pa, pc, pb, pd] pc pb (by decide) (by decide)

/-- A concrete stored record used by the error-path examples. -/
def demoRec : PostRecord :=
  { text := "hello", createdAt := 7, user := some "bob",
    likes := some ∅, reports := some ∅, governanceVotes := some ∅ }

/-- C5 counterexample: casting a vote on an absent post id with a logged-in
session and resolved actor does not report `PostNotFound`; the handler reads a
field of the `undefined` callback value and dies with an uncaught TypeError
(no store write happens). -/
theorem C5_counterexample :
    runVote VoteClass.like true (some "alice") [] "p1" = (Outcome.typeError, [])
    ∧ Outcome.typeError ≠ Outcome.postNotFound := by
  constructor
  · decide
  · decide

/-- C5 amended: on an absent post id (with the login and identity checks
passed) every handler aborts with the uncaught TypeError — not a surfaced
`PostNotFound` — and performs no store write. -/
theorem C5_absent_post_type_error (c : VoteClass) (actor : Option String) (s : Store)
    (pid : String) (hact : truthy actor = true) (habs : s.get pid = none) :
    runVote c true actor s pid = (Outcome.typeError, s) := by
  have h := castVote_eq c true actor s pid
  rw [habs] at h
  simp only [Bool.not_true, Bool.false_eq_true, if_false, hact] at h
  simp [runVote, h]

/-- Witness for C5's amended statement on the empty store. -/
theorem C5_absent_post_type_error_witness :
    runVote VoteClass.report true (some "alice") [] "p1" = (Outcome.typeError, []) :=
  C5_absent_post_type_error VoteClass.report (some "alice") [] "p1" (by decide) (by rfl)

/-- C6 counterexample: with `loggedIn = true` but no resolved alias, the
handler aborts through the bare `return` with no user-facing warning (the
warning toast only fires on the `!loggedIn` branch); the store is untouched. -/
theorem C6_counterexample :
    (runVote VoteClass.like true none [("p1", demoRec)] "p1").1 = Outcome.silentAbort
    ∧ Outcome.silentAbort ≠ Outcome.warnLogin
    ∧ (runVote VoteClass.like true none [("p1", demoRec)] "p1").2 = [("p1", demoRec)] := by
  refine ⟨by decide, by decide, by decide⟩

/-- C6 amended: a cast with no login or no resolved (non-empty) identity is
aborted before any store access and leaves the store unchanged; the
`ログインしてください` warning is surfaced exactly when the session is not
logged in, while a logged-in session with an unresolved identity aborts
silently. -/
theorem C6_unauthorized_abort (c : VoteClass) (lg : Bool) (actor : Option String)
    (s : Store) (pid : String) (h : lg = false ∨ truthy actor = false) :
    (runVote c lg actor s pid).2 = s
    ∧ ((runVote c lg actor s pid).1 = Outcome.warnLogin
        ∨ (runVote c lg actor s pid).1 = Outcome.silentAbort)
    ∧ ((runVote c lg actor s pid).1 = Outcome.warnLogin ↔ lg = false) := by
  by_cases hlg : lg = false
  · have hc : castVote c lg actor s pid = (Outcome.warnLogin, none) := by
      rw [castVote_eq, hlg]
      simp
    have hr : runVote c lg actor s pid = (Outcome.warnLogin, s) := by
      simp [runVote, hc]
    rw [hr]
    exact ⟨rfl, Or.inl rfl, by simp [hlg]⟩
  · have hlg2 : lg = true := by
      cases hv : lg
      · exact absurd hv hlg
      · rfl
    have htru : truthy actor = false := by
      rcases h with h | h
      · exact absurd h hlg
      · exact h
    have hc : castVote c lg actor s pid = (Outcome.silentAbort, none) := by
      rw [castVote_eq, hlg2, htru]
      simp
    have hr : runVote c lg actor s pid = (Outcome.silentAbort, s) := by
      simp [runVote, hc]
    rw [hr]
    refine ⟨rfl, Or.inr rfl, ?_⟩
    simp [hlg2]

/-- Witness for C6's amended statement: an empty alias string is falsy. -/
theorem C6_unauthorized_abort_witness :
    (runVote VoteClass.governance true (some "") [("p1", demoRec)] "p1").2 = [("p1", demoRec)] :=
  (C6_unauthorized_abort VoteClass.governance true (some "") [("p1", demoRec)] "p1"
    (Or.inr (by decide))).1

/-!
The posts subscription (source lines 77-91): on every `(data, key)` event,
if `data && data.text` is truthy, insert `{ id: key, ...data }` when the key
is unknown, otherwise replace the stored entry for that key.  The `prev.find`
result is only used as an existence test, modelled with `List.any`.
-/
/-- The per-entry replacement of `prev.map(p => (p.id === key ? {id: key, ...data} : p))`. -/
def replaceEntry (key : String) (d : PostRecord) (p : PostData) : PostData :=
  if p.id == key then toPostData key d else p

/-- One step of the posts subscription callback. -/
def onUpdate (view : List PostData) (key : String) (data : Option PostRecord) :
    List PostData :=
  match data with
  | none => view
  | some d =>
      if d.text == "" then view
      else if view.any (fun p => p.id == key) then view.map (replaceEntry key d)
      else view ++ [toPostData key d]

/-- Unfolding `onUpdate` on a present record: unfolds to the guard-and-branch form. -/
theorem onUpdate_some (v : List PostData) (k : String) (r : PostRecord) :
    onUpdate v k (some r)
      = if r.text == "" then v
        else if v.any (fun p => p.id == k) then v.map (replaceEntry k r)
        else v ++ [toPostData k r] := rfl

/-- Replacing twice is replacing once. -/
theorem replaceEntry_idem (k : String) (r : PostRecord) (p : PostData) :
    replaceEntry k r (replaceEntry k r p) = replaceEntry k r p := by
  by_cases hp : (p.id == k) = true
  · simp [replaceEntry, hp, toPostData]
  · simp [replaceEntry, hp]

/-- The replaced entry for a matching key has that key as id. -/
theorem replaceEntry_id_match (k : String) (r : PostRecord) (p : PostData)
    (hp : (p.id == k) = true) : ((replaceEntry k r p).id == k) = true := by
  simp [replaceEntry, hp, toPostData]

/-- Replaying the same `(key, data)` event on the result of applying it once
changes nothing. -/
theorem onUpdate_idem (v : List PostData) (k : String) (d : Option PostRecord) :
    onUpdate (onUpdate v k d) k d = onUpdate v k d := by
  cases d with
  | none => rfl
  | some r =>
      by_cases ht : (r.text == "") = true
      · rw [onUpdate_some, if_pos ht, onUpdate_some, if_pos ht]
      · by_cases hex : (v.any fun p => p.id == k) = true
        · have h1 : onUpdate v k (some r) = v.map (replaceEntry k r) := by
            rw [onUpdate_some, if_neg ht, if_pos hex]
          have hany : ((v.map (replaceEntry k r)).any fun p => p.id == k) = true := by
            rcases List.any_eq_true.mp hex with ⟨p, hp, hpk⟩
            exact List.any_eq_true.mpr
              ⟨replaceEntry k r p, List.mem_map_of_mem _ hp, replaceEntry_id_match k r p hpk⟩
          have h2 : onUpdate (v.map (replaceEntry k r)) k (some r)
              = (v.map (replaceEntry k r)).map (replaceEntry k r) := by
            rw [onUpdate_some, if_neg ht, if_pos hany]
          rw [h1, h2, List.map_map]
          exact List.map_congr_left (fun p _ => replaceEntry_idem k r p)
        · have hvnone : ∀ p ∈ v, (p.id == k) = false := by
            intro p hp
            cases hb : (p.id == k)
            · rfl
            · exact absurd (List.any_eq_true.mpr ⟨p, hp, hb⟩) hex
          have h1 : onUpdate v k (some r) = v ++ [toPostData k r] := by
            rw [onUpdate_some, if_neg ht, if_neg hex]
          have hany2 : ((v ++ [toPostData k r]).any fun p => p.id == k) = true := by
            refine List.any_eq_true.mpr ⟨toPostData k r, ?_, ?_⟩
            · exact List.mem_append.mpr (Or.inr (List.mem_singleton.mpr rfl))
            · simp [toPostData]
          have h2 : onUpdate (v ++ [toPostData k r]) k (some r)
              = (v ++ [toPostData k r]).map (replaceEntry k r) := by
            rw [onUpdate_some, if_neg ht, if_pos hany2]
          rw [h1, h2, List.map_append]
          have hmv : v.map (replaceEntry k r) = v := by
            have heq : v.map (replaceEntry k r) = v.map (fun p => p) :=
              List.map_congr_left (fun p hp => by
                rw [replaceEntry, hvnone p hp]
                simp)
            rw [heq, List.map_id_fun']
            rfl
          rw [hmv]
          congr 1
          simp [replaceEntry, toPostData]

/-- C7: replaying an identical `(key, record)` event N ≥ 1 times produces the
same view as applying it once; a record that passes the guard is appended when
its key is unknown and replaces the stored entry when it is known. -/
theorem C7_projection_idempotent (v : List PostData) (k : String) (d : Option PostRecord)
    (n : Nat) (hn : 1 ≤ n) :
    (fun w => onUpdate w k d)^[n] v = onUpdate v k d
    ∧ (∀ r, d = some r → (r.text == "") = false →
        (((v.any fun p => p.id == k) = false → onUpdate v k d = v ++ [toPostData k r])
         ∧ ((v.any fun p => p.id == k) = true →
             onUpdate v k d = v.map (replaceEntry k r)))) := by
  constructor
  · cases n with
    | zero => exact absurd hn (by omega)
    | succ m =>
        induction m with
        | zero => rw [Function.iterate_one]
        | succ l ihl =>
            rw [Function.iterate_succ_apply', ihl (by omega)]
            exact onUpdate_idem v k d
  · intro r hdr htext
    subst hdr
    constructor
    · intro hnone
      rw [onUpdate_some, if_neg (by rw [htext]; exact Bool.false_ne_true),
        if_neg (by rw [hnone]; exact Bool.false_ne_true)]
    · intro hsome
      rw [onUpdate_some, if_neg (by rw [htext]; exact Bool.false_ne_true), if_pos hsome]

/-- Witness for C7: replaying a concrete event twice on the empty view. -/
theorem C7_projection_idempotent_witness :
    (fun w => onUpdate w "p1" (some demoRec))^[2] [] = onUpdate [] "p1" (some demoRec) :=
  (C7_projection_idempotent [] "p1" (some demoRec) 2 (by omega)).1

/-- A subscription step preserves "every view entry has non-empty text". -/
theorem onUpdate_preserves_nonempty (v : List PostData) (k : String) (d : Option PostRecord)
    (hv : ∀ p ∈ v, p.text ≠ "") : ∀ p ∈ onUpdate v k d, p.text ≠ "" := by
  cases d with
  | none => exact hv
  | some r =>
      by_cases ht : (r.text == "") = true
      · rw [onUpdate_some, if_pos ht]
        exact hv
      · have htx : r.text ≠ "" := by
          simpa using ht
        by_cases hex : (v.any fun p => p.id == k) = true
        · rw [onUpdate_some, if_neg ht, if_pos hex]
          intro p hp
          rcases List.mem_map.mp hp with ⟨q, hq, hfq⟩
          by_cases hqk : (q.id == k) = true
          · rw [← hfq, replaceEntry, if_pos hqk]
            exact htx
          · rw [← hfq, replaceEntry, if_neg hqk]
            exact hv q hq
        · rw [onUpdate_some, if_neg ht, if_neg hex]
          intro p hp
          rcases List.mem_append.mp hp with hp | hp
          · exact hv p hp
          · rw [List.mem_singleton.mp hp]
            exact htx

/-- C9: a subscription event whose record is absent or whose text is empty is
ignored, and consequently every entry of a view reached from a view of
non-empty-text entries (in particular the initial empty view) has non-empty
text. -/
theorem C9_view_nonempty_text (v : List PostData) (es : List (String × Option PostRecord))
    (hv : ∀ p ∈ v, p.text ≠ "") :
    (∀ k, onUpdate v k none = v)
    ∧ (∀ k r, r.text = "" → onUpdate v k (some r) = v)
    ∧ (∀ p ∈ es.foldl (fun w e => onUpdate w e.1 e.2) v, p.text ≠ "") := by
  refine ⟨fun k => rfl, fun k r hr => ?_, ?_⟩
  · rw [onUpdate_some, if_pos (by rw [hr]; rfl)]
  · induction es generalizing v with
    | nil => exact hv
    | cons e rest ih =>
        have hstep := onUpdate_preserves_nonempty v e.1 e.2 hv
        have hfold : (e :: rest).foldl (fun w ev => onUpdate w ev.1 ev.2) v
            = rest.foldl (fun w ev => onUpdate w ev.1 ev.2) (onUpdate v e.1 e.2) := rfl
        rw [hfold]
        exact ih (onUpdate v e.1 e.2) hstep
/-- A record whose text is empty, for exercising the ignored-event branch. -/
def emptyTextRec : PostRecord :=
  { text := "", createdAt := 1, user := none,
    likes := none, reports := none, governanceVotes := none }

/-- Witness for C9: after an empty-text event and a real event on the empty
view, the concrete surviving entry has non-empty text. -/
theorem C9_view_nonempty_text_witness :
    (toPostData "p1" demoRec).text ≠ "" :=
  (C9_view_nonempty_text []
    [("p0", some emptyTextRec), ("p1", some demoRec)]
    (fun p hp => absurd hp (List.not_mem_nil p))).2.2
    (toPostData "p1" demoRec) (by decide)

/-- C8: a successful cast of class `c` writes a partial object containing only
the class-`c` vote set (no text, createdAt, user, or other vote classes), that
set extends the one just read by the actor's identity, and merging the write
leaves every other field of the stored record unchanged. -/
theorem C8_vote_write_frame (c : VoteClass) (actor : Option String) (s : Store)
    (pid : String) (d : PostRecord) (m : PartialPost)
    (hd : s.get pid = some d)
    (h : castVote c true actor s pid = (Outcome.voteCast, some m)) :
    m.text = none ∧ m.createdAt = none ∧ m.user = none
    ∧ (∀ c', c' ≠ c → partialVoteField c' m = none)
    ∧ partialVoteField c m = some (insert (actor.getD "") ((voteField c d).getD ∅))
    ∧ (voteField c d).getD ∅ ⊆ insert (actor.getD "") ((voteField c d).getD ∅)
    ∧ (mergePost d m).text = d.text
    ∧ (mergePost d m).createdAt = d.createdAt
    ∧ (mergePost d m).user = d.user
    ∧ (∀ c', c' ≠ c → voteField c' (mergePost d m) = voteField c' d) := by
  obtain ⟨dk, hk, hm, _⟩ := castVote_write_shape c true actor s pid Outcome.voteCast m h
  rw [hd] at hk
  cases Option.some.inj hk
  subst hm
  refine ⟨?_, ?_, ?_, ?_, ?_, Finset.subset_insert _ _, ?_, ?_, ?_,
    fun c' hne => voteField_merge_voteMsg_ne c c' hne d _⟩
  · cases c <;> rfl
  · cases c <;> rfl
  · cases c <;> rfl
  · intro c' hne
    cases c <;> cases c' <;> first
      | exact absurd rfl hne
      | rfl
  · cases c <;> rfl
  · cases c <;> rfl
  · cases c <;> rfl
  · cases c <;> rfl

/-- Witness for C8: a like by alice on the demo record writes only `likes`. -/
theorem C8_vote_write_frame_witness :
    ({ likes := some {"alice"} } : PartialPost).text = none :=
  (C8_vote_write_frame VoteClass.like (some "alice") [("p1", demoRec)] "p1" demoRec
    { likes := some {"alice"} } (by rfl) (by decide)).1

/-- JavaScript whitespace for `String.prototype.trim` (the characters the
source's inputs can contain). -/
def isSpaceChar (c : Char) : Bool :=
  c = ' ' || c = '\t' || c = '\n' || c = '\r'

/-- JavaScript `text.trim()`: strip leading and trailing whitespace. -/
def jsTrim (s : String) : String :=
  String.mk (((s.data.dropWhile isSpaceChar).reverse.dropWhile isSpaceChar).reverse)

/-- Validation `validateAndSanitizeInput` (source lines 35-50): trim, require at least
`MIN_LENGTH = 3` characters, sanitize through `DOMPurify.sanitize` (an
external collaborator, passed as a parameter), and reject when a script tag
survives (the regex test, also a parameter). -/
def validateAndSanitizeInput (sanitize : String → String) (hasScriptTag : String → Bool)
    (text : String) : Option String :=
  if (jsTrim text).length < 3 then none
  else
    if hasScriptTag (sanitize (jsTrim text)) then none
    else some (sanitize (jsTrim text))

/-- Submission `handlePost` (source lines 104-132): requires a logged-in session and a
valid input; the created record has `likes`, `reports`, `governanceVotes` all
initialized to `{}` and `user` set to the session alias or `'unknown'`. -/
def handlePost (sanitize : String → String) (hasScriptTag : String → Bool)
    (loggedIn : Bool) (sessionAlias : Option String) (input : String) (now : Int) :
    Option PostRecord :=
  if !loggedIn then none
  else
    match validateAndSanitizeInput sanitize hasScriptTag input with
    | none => none
    | some t =>
        some { text := t, createdAt := now,
               user := some (if truthy sessionAlias then sessionAlias.getD "" else "unknown"),
               likes := some ∅, reports := some ∅, governanceVotes := some ∅ }

/-- C10: every record created by a successful submission has all three vote
sets empty, and its projected view entry is eligible under the visibility
rule. -/
theorem C10_new_post_eligible (sanitize : String → String) (hasScriptTag : String → Bool)
    (lg : Bool) (sessionAlias : Option String) (input : String) (now : Int) (k : String)
    (r : PostRecord)
    (h : handlePost sanitize hasScriptTag lg sessionAlias input now = some r) :
    r.likes = some ∅ ∧ r.reports = some ∅ ∧ r.governanceVotes = some ∅
    ∧ isEligible (toPostData k r) = true := by
  unfold handlePost at h
  by_cases hlg : lg
  · rw [hlg] at h
    simp only [Bool.not_true, Bool.false_eq_true, if_false] at h
    rcases hv : validateAndSanitizeInput sanitize hasScriptTag input with _ | t
    · rw [hv] at h
      exact absurd h (by simp)
    · rw [hv] at h
      cases Option.some.inj h
      exact ⟨rfl, rfl, rfl, rfl⟩
  · have hlg2 : lg = false := by
      cases hb : lg
      · rfl
      · exact absurd hb hlg
    rw [hlg2] at h
    exact absurd h (by simp)

/-- Witness for C10 with identity sanitizer and a five-character input. -/
theorem C10_new_post_eligible_witness :
    isEligible (toPostData "p"
      { text := "hello", createdAt := 3, user := some "bob",
        likes := some ∅, reports := some ∅, governanceVotes := some ∅ }) = true :=
  (C10_new_post_eligible (fun x => x) (fun _ => false) true (some "bob") "hello" 3 "p"
    { text := "hello", createdAt := 3, user := some "bob",
      likes := some ∅, reports := some ∅, governanceVotes := some ∅ }
    (by decide)).2.2.2
